import Mathlib

/-!
Shallow embedding of the resiliency core of `unifiedcatalogpy`
(`src/unifiedcatalogpy/retry.py`, `src/unifiedcatalogpy/exceptions.py`,
`src/unifiedcatalogpy/api_client.py`) together with proofs about it.

Modelling conventions:
* Python floats (delays, timestamps) are modelled as rationals `ℚ`.
* Python ints are modelled as `Int` (or `Nat` for loop indices).
* `random.uniform a b` is modelled by an explicit oracle
  `uniform : ℚ → ℚ → ℚ` supplied to the functions that may draw from it.
* `time.time()` is modelled by an explicit `now : ℚ` argument at each call.
* Exceptions are modelled by a value carrying its Python class together
  with the optional `status_code` payload of `APIError`; the Python class
  hierarchy of `exceptions.py` is reproduced by `ExcClass.ancestors`.
-/

namespace UnifiedCatalog

/-- The exception classes of `exceptions.py` (plus `CircuitBreakerOpenError`
from `retry.py`, Python's builtin `Exception` and `RuntimeError`). -/
inductive ExcClass where
  | exceptionC
  | runtimeErrorC
  | unifiedCatalogErrorC
  | authenticationErrorC
  | apiErrorC
  | validationErrorC
  | relationshipErrorC
  | entityNotFoundErrorC
  | permissionErrorC
  | circuitBreakerOpenErrorC
  deriving DecidableEq, Repr

/-- The superclasses of each class (the class itself included), read off the
`class C(B):` headers of `exceptions.py` and `retry.py`. -/
def ExcClass.ancestors : ExcClass → List ExcClass
  | .exceptionC => [.exceptionC]
  | .runtimeErrorC => [.runtimeErrorC, .exceptionC]
  | .unifiedCatalogErrorC => [.unifiedCatalogErrorC, .exceptionC]
  | .authenticationErrorC => [.authenticationErrorC, .unifiedCatalogErrorC, .exceptionC]
  | .apiErrorC => [.apiErrorC, .unifiedCatalogErrorC, .exceptionC]
  | .validationErrorC => [.validationErrorC, .unifiedCatalogErrorC, .exceptionC]
  | .relationshipErrorC => [.relationshipErrorC, .unifiedCatalogErrorC, .exceptionC]
  | .entityNotFoundErrorC =>
      [.entityNotFoundErrorC, .apiErrorC, .unifiedCatalogErrorC, .exceptionC]
  | .permissionErrorC =>
      [.permissionErrorC, .apiErrorC, .unifiedCatalogErrorC, .exceptionC]
  | .circuitBreakerOpenErrorC => [.circuitBreakerOpenErrorC, .exceptionC]

/-- `c.isSubclass d`: Python `issubclass(c, d)`. -/
def ExcClass.isSubclass (c d : ExcClass) : Bool := c.ancestors.contains d

/-- A raised exception value: its runtime class and the `status_code`
payload that `APIError.__init__` stores (`none` models Python `None`). -/
structure Exc where
  cls : ExcClass
  status_code : Option Int := none
  deriving DecidableEq, Repr

/-- Python `isinstance(e, c)`. -/
def isinstance (e : Exc) (c : ExcClass) : Bool := e.cls.isSubclass c

/-- The `RetryConfig` attributes assigned by `RetryConfig.__init__`
(`retry.py` lines 18-45).  The constructor performs no validation, so the
structure admits every combination of field values, exactly as the code
does. -/
structure RetryConfig where
  max_attempts : Int
  base_delay : ℚ
  max_delay : ℚ
  exponential_base : ℚ
  jitter : Bool
  retryable_exceptions : List ExcClass
  non_retryable_status_codes : List Int
  deriving DecidableEq, Repr

/-- `RetryConfig.__init__`: stores each argument into the matching
attribute with no checks (`retry.py` lines 39-45). -/
def RetryConfig.make (max_attempts : Int) (base_delay max_delay exponential_base : ℚ)
    (jitter : Bool) (retryable_exceptions : List ExcClass)
    (non_retryable_status_codes : List Int) : RetryConfig :=
  { max_attempts := max_attempts
    base_delay := base_delay
    max_delay := max_delay
    exponential_base := exponential_base
    jitter := jitter
    retryable_exceptions := retryable_exceptions
    non_retryable_status_codes := non_retryable_status_codes }

/-- `RetryConfig()` with every default of the Python signature. -/
def RetryConfig.default : RetryConfig :=
  RetryConfig.make 3 1 60 2 true [.apiErrorC] [400, 401, 403, 404, 422]

/-- `should_retry(exception, config)` (`retry.py` lines 48-69). -/
def should_retry (exception : Exc) (config : RetryConfig) : Bool :=
  if !(config.retryable_exceptions.any (fun c => isinstance exception c)) then
    false
  else if isinstance exception .apiErrorC &&
      (match exception.status_code with
       | some sc => config.non_retryable_status_codes.contains sc
       | none => false) then
    false
  else if isinstance exception .authenticationErrorC then
    false
  else
    true

/-- `calculate_delay(attempt, config)` (`retry.py` lines 72-94).
`uniform a b` models the draw `random.uniform(a, b)` used when jitter is
enabled. -/
def calculate_delay (attempt : Nat) (config : RetryConfig) (uniform : ℚ → ℚ → ℚ) : ℚ :=
  if attempt = 0 then 0
  else
    let delay := config.base_delay * config.exponential_base ^ (attempt - 1)
    let delay := min delay config.max_delay
    let delay :=
      if config.jitter then
        let jitter_range := delay * (1 / 10)
        delay + uniform (-jitter_range) jitter_range
      else delay
    max 0 delay

/-- The behaviour of one invocation of a wrapped operation: it either
returns a value or raises an exception. -/
inductive Outcome (α : Type) where
  | ok (v : α)
  | raise (e : Exc)
  deriving DecidableEq, Repr

/-- What a call through the retry wrapper ultimately does. -/
inductive RetryResult (α : Type) where
  | ok (v : α)
  | raised (e : Exc)
  | runtimeError
  deriving DecidableEq, Repr

/-- The outcome of the whole retried call together with the number of
invocations of the wrapped operation and the list of delays slept. -/
structure RetryTrace (α : Type) where
  result : RetryResult α
  invocations : Nat
  sleeps : List ℚ
  deriving DecidableEq, Repr

/-- The `for attempt in range(config.max_attempts)` loop of
`retry_on_failure.wrapper` (`retry.py` lines 109-143), from attempt
index `attempt` with `fuel` iterations left.  `func k` is the behaviour
of the wrapped operation on its `k`-th invocation; invocation index and
attempt index coincide because each iteration invokes the operation
exactly once.  `lastExc` is the `last_exception` variable. -/
def retryGo (config : RetryConfig) (uniform : ℚ → ℚ → ℚ) (func : Nat → Outcome α)
    (lastExc : Option Exc) : Nat → Nat → RetryTrace α
  | _, 0 =>
      match lastExc with
      | some e => ⟨.raised e, 0, []⟩
      | none => ⟨.runtimeError, 0, []⟩
  | attempt, fuel + 1 =>
      let delay := calculate_delay attempt config uniform
      let slept := if 0 < delay then [delay] else []
      match func attempt with
      | .ok v => ⟨.ok v, 1, slept⟩
      | .raise e =>
          if !(should_retry e config) then ⟨.raised e, 1, slept⟩
          else if (attempt : Int) = config.max_attempts - 1 then ⟨.raised e, 1, slept⟩
          else
            let r := retryGo config uniform func (some e) (attempt + 1) fuel
            ⟨r.result, r.invocations + 1, slept ++ r.sleeps⟩

/-- A call to the function produced by `retry_on_failure(config)`:
`range(max_attempts)` iterates `max_attempts.toNat` times starting at 0
with no previous exception recorded. -/
def retryRun (config : RetryConfig) (uniform : ℚ → ℚ → ℚ)
    (func : Nat → Outcome α) : RetryTrace α :=
  retryGo config uniform func none 0 config.max_attempts.toNat

/-- The states of `CircuitBreaker.state` (`"CLOSED"`, `"OPEN"`,
`"HALF_OPEN"`). -/
inductive BreakerState where
  | closed
  | open
  | halfOpen
  deriving DecidableEq, Repr

/-- The attributes of a `CircuitBreaker` instance
(`retry.py` lines 154-174). -/
structure CircuitBreaker where
  failure_threshold : Int
  recovery_timeout : ℚ
  expected_exception : ExcClass
  failure_count : Int
  last_failure_time : Option ℚ
  state : BreakerState
  deriving DecidableEq, Repr

/-- `CircuitBreaker.__init__`: state tracking starts closed with no
recorded failures. -/
def CircuitBreaker.make (failure_threshold : Int) (recovery_timeout : ℚ)
    (expected_exception : ExcClass) : CircuitBreaker :=
  { failure_threshold := failure_threshold
    recovery_timeout := recovery_timeout
    expected_exception := expected_exception
    failure_count := 0
    last_failure_time := none
    state := .closed }

/-- The exception raised by a rejected call:
`CircuitBreakerOpenError("Circuit breaker is OPEN")`. -/
def circuitBreakerOpenExc : Exc := ⟨.circuitBreakerOpenErrorC, none⟩

/-- The exception `RuntimeError(...)` raised by the retry wrapper when no
attempt ran. -/
def runtimeErrorExc : Exc := ⟨.runtimeErrorC, none⟩

/-- `CircuitBreaker._should_attempt_reset` (`retry.py` lines 207-211);
`now` models the `time.time()` call. -/
def CircuitBreaker.shouldAttemptReset (cb : CircuitBreaker) (now : ℚ) : Bool :=
  match cb.last_failure_time with
  | none => true
  | some t => now - t ≥ cb.recovery_timeout

/-- `CircuitBreaker._on_success` (`retry.py` lines 213-216). -/
def CircuitBreaker.onSuccess (cb : CircuitBreaker) : CircuitBreaker :=
  { cb with failure_count := 0, state := .closed }

/-- `CircuitBreaker._on_failure` (`retry.py` lines 218-225); `now` models
the `time.time()` call that stamps `last_failure_time`. -/
def CircuitBreaker.onFailure (cb : CircuitBreaker) (now : ℚ) : CircuitBreaker :=
  let cb := { cb with failure_count := cb.failure_count + 1, last_failure_time := some now }
  if cb.failure_count ≥ cb.failure_threshold then { cb with state := .open } else cb

/-- The open-state check at the top of `CircuitBreaker.call`
(`retry.py` lines 193-197): `none` means the call is rejected with
`CircuitBreakerOpenError`; `some cb1` means the call proceeds with the
(possibly half-open) breaker `cb1`. -/
def CircuitBreaker.gate (cb : CircuitBreaker) (now : ℚ) : Option CircuitBreaker :=
  if cb.state = .open then
    if cb.shouldAttemptReset now then some { cb with state := .halfOpen } else none
  else some cb

/-- What one `CircuitBreaker.call` does: the value returned or exception
raised, the breaker afterwards, and whether the wrapped operation was
invoked. -/
structure CallStep (α : Type) where
  result : RetryResult α
  breaker : CircuitBreaker
  invoked : Bool
  deriving DecidableEq, Repr

/-- `CircuitBreaker.call(func, ...)` (`retry.py` lines 183-205).
`outcome` is what `func(*args, **kwargs)` would do if invoked; exceptions
not matching `expected_exception` propagate without touching the state. -/
def CircuitBreaker.call (cb : CircuitBreaker) (now : ℚ) (outcome : Outcome α) :
    CallStep α :=
  match cb.gate now with
  | none => ⟨.raised circuitBreakerOpenExc, cb, false⟩
  | some cb1 =>
      match outcome with
      | .ok v => ⟨.ok v, cb1.onSuccess, true⟩
      | .raise e =>
          if isinstance e cb.expected_exception then ⟨.raised e, cb1.onFailure now, true⟩
          else ⟨.raised e, cb1, true⟩

/-- One external call arriving at a breaker: the wall-clock time of the
call and what the wrapped operation would do. -/
structure CallEvent (α : Type) where
  now : ℚ
  outcome : Outcome α
  deriving DecidableEq, Repr

/-- Fold a sequence of calls through a breaker, keeping only the breaker. -/
def CircuitBreaker.runCalls (cb : CircuitBreaker) : List (CallEvent α) → CircuitBreaker
  | [] => cb
  | ev :: rest => ((cb.call ev.now ev.outcome).breaker).runCalls rest

/-- A breaker is reachable when some sequence of calls starting from a
freshly constructed breaker produces it — the states that actually occur
in a program run. -/
def CircuitBreaker.Reachable (cb : CircuitBreaker) : Prop :=
  ∃ (th : Int) (rt : ℚ) (ec : ExcClass) (events : List (CallEvent Unit)),
    cb = (CircuitBreaker.make th rt ec).runCalls events

/-- The single invocation the breaker makes of the retry-decorated
`_request_with_retry`, summarised as the outcome the breaker observes
(`raise last_exception` and `raise RuntimeError(...)` are both raised
exceptions) together with the number of invocations of the underlying
operation. -/
def retryFinalOutcome (config : RetryConfig) (uniform : ℚ → ℚ → ℚ)
    (func : Nat → Outcome α) : Outcome α × Nat :=
  match retryRun config uniform func with
  | ⟨.ok v, n, _⟩ => (.ok v, n)
  | ⟨.raised e, n, _⟩ => (.raise e, n)
  | ⟨.runtimeError, n, _⟩ => (.raise runtimeErrorExc, n)

/-- What one `ApiClient.request` does end to end. -/
structure RequestResult (α : Type) where
  result : RetryResult α
  breaker : CircuitBreaker
  opInvocations : Nat
  retryInvoked : Bool
  deriving DecidableEq, Repr

/-- `ApiClient.request` with the circuit breaker enabled
(`api_client.py` lines 18-26): `self.circuit_breaker.call` applied to the
retry-decorated `_request_with_retry`, whose per-invocation behaviour is
`func`.  The breaker invokes the retried sequence at most once, and only
when its gate lets the call through. -/
def ApiClient.request (cb : CircuitBreaker) (config : RetryConfig)
    (uniform : ℚ → ℚ → ℚ) (func : Nat → Outcome α) (now : ℚ) : RequestResult α :=
  let ret := retryFinalOutcome config uniform func
  let step := cb.call now ret.1
  { result := step.result
    breaker := step.breaker
    opInvocations := if step.invoked then ret.2 else 0
    retryInvoked := step.invoked }

/-- A configuration with a negative `base_delay`, accepted unchecked by
`RetryConfig.__init__`. -/
def cfgNegBase : RetryConfig :=
  RetryConfig.make 3 (-1) 60 2 false [.apiErrorC] [400, 401, 403, 404, 422]

/-- The inductive state invariant of a breaker: whenever it is open, the
failure count has reached the threshold and a failure time is recorded. -/
def BreakerInv (cb : CircuitBreaker) : Prop :=
  cb.state = .open →
    cb.failure_threshold ≤ cb.failure_count ∧ cb.last_failure_time ≠ none

/-- The breaker reached by one counted failure at time 0 on a fresh
`CircuitBreaker(failure_threshold=1, recovery_timeout=5)`. -/
def cbAfterOneFailure : CircuitBreaker :=
  { failure_threshold := 1, recovery_timeout := 5, expected_exception := .apiErrorC,
    failure_count := 1, last_failure_time := some 0, state := .open }

/-! ## Theorems -/

/-- C5: for every `AuthenticationError` instance and every `RetryConfig`
whatsoever — including configurations whose `retryable_exceptions` tuple
contains `AuthenticationError` — `should_retry` returns `False`. -/
theorem should_retry_auth_always_false (e : Exc) (config : RetryConfig)
    (h : isinstance e .authenticationErrorC = true) :
    should_retry e config = false := by
  unfold should_retry
  split
  · rfl
  · split
    · rfl
    · simp [h]

/-- Witness for C5: an `AuthenticationError` under a policy that lists
`AuthenticationError` itself as retryable is still not retried. -/
theorem should_retry_auth_always_false_witness :
    should_retry ⟨.authenticationErrorC, none⟩
      (RetryConfig.make 3 1 60 2 true [.authenticationErrorC, .exceptionC] []) = false :=
  should_retry_auth_always_false ⟨.authenticationErrorC, none⟩
    (RetryConfig.make 3 1 60 2 true [.authenticationErrorC, .exceptionC] []) (by decide)

/-- C6, counterexample: with `base_delay = -1`, `jitter` disabled and
`attempt = 1`, `calculate_delay` returns `max(0, ...) = 0`, not the claimed
`min(base_delay * exponential_base^(attempt-1), max_delay) = -1`. -/
theorem calculate_delay_min_counterexample :
    cfgNegBase.jitter = false ∧
    calculate_delay 1 cfgNegBase (fun _ _ => 0) ≠
      min (cfgNegBase.base_delay * cfgNegBase.exponential_base ^ (1 - 1))
        cfgNegBase.max_delay := by
  constructor
  · rfl
  · norm_num [calculate_delay, cfgNegBase, RetryConfig.make, min_def, max_def]

/-- C6 amended: `calculate_delay(0, config) = 0` regardless of jitter; for
`attempt ≥ 1` with jitter disabled `calculate_delay` equals
`max(0, min(base_delay * exponential_base^(attempt-1), max_delay))`; and it
coincides with the claimed `min(...)` under non-negative `base_delay`,
`exponential_base` and `max_delay`. -/
theorem calculate_delay_spec (config : RetryConfig) (uniform : ℚ → ℚ → ℚ)
    (attempt : Nat) :
    calculate_delay 0 config uniform = 0 ∧
    (1 ≤ attempt → config.jitter = false →
      calculate_delay attempt config uniform =
        max 0 (min (config.base_delay * config.exponential_base ^ (attempt - 1))
          config.max_delay)) ∧
    (1 ≤ attempt → config.jitter = false → 0 ≤ config.base_delay →
      0 ≤ config.exponential_base → 0 ≤ config.max_delay →
      calculate_delay attempt config uniform =
        min (config.base_delay * config.exponential_base ^ (attempt - 1))
          config.max_delay) := by
  refine ⟨rfl, ?_, ?_⟩
  · intro h1 hj
    unfold calculate_delay
    rw [if_neg (by omega), hj]
    simp
  · intro h1 hj hb he hm
    unfold calculate_delay
    rw [if_neg (by omega), hj]
    simp only [Bool.false_eq_true, if_false]
    exact max_eq_right (le_min (mul_nonneg hb (pow_nonneg he _)) hm)

/-- Witness for C6 (amended): the default backoff with jitter off gives
`max 0 (min (1 * 2 ^ 1) 60) = 2` at attempt 2. -/
theorem calculate_delay_spec_witness :
    calculate_delay 0 (RetryConfig.make 3 1 60 2 false [.apiErrorC] []) (fun _ _ => 0) = 0 ∧
    calculate_delay 2 (RetryConfig.make 3 1 60 2 false [.apiErrorC] []) (fun _ _ => 0) =
      max 0 (min ((RetryConfig.make 3 1 60 2 false [.apiErrorC] []).base_delay *
        (RetryConfig.make 3 1 60 2 false [.apiErrorC] []).exponential_base ^ (2 - 1))
        (RetryConfig.make 3 1 60 2 false [.apiErrorC] []).max_delay) ∧
    calculate_delay 2 (RetryConfig.make 3 1 60 2 false [.apiErrorC] []) (fun _ _ => 0) =
      min ((RetryConfig.make 3 1 60 2 false [.apiErrorC] []).base_delay *
        (RetryConfig.make 3 1 60 2 false [.apiErrorC] []).exponential_base ^ (2 - 1))
        (RetryConfig.make 3 1 60 2 false [.apiErrorC] []).max_delay :=
  ⟨(calculate_delay_spec (RetryConfig.make 3 1 60 2 false [.apiErrorC] []) (fun _ _ => 0) 2).1,
   (calculate_delay_spec (RetryConfig.make 3 1 60 2 false [.apiErrorC] []) (fun _ _ => 0) 2).2.1
     (by omega) rfl,
   (calculate_delay_spec (RetryConfig.make 3 1 60 2 false [.apiErrorC] []) (fun _ _ => 0) 2).2.2
     (by omega) rfl (by norm_num [RetryConfig.make]) (by norm_num [RetryConfig.make])
     (by norm_num [RetryConfig.make])⟩

/-- C9, counterexample: `RetryConfig.__init__` does not reject
`max_attempts = 0`; construction succeeds and stores the out-of-range
value, so the constructed policy violates `max_attempts ≥ 1`. -/
theorem retryConfig_no_validation_counterexample :
    ¬ 1 ≤ (RetryConfig.make 0 1 60 2 true [.apiErrorC] [400, 401, 403, 404, 422]).max_attempts := by
  decide

/-- C9 amended: the constructor performs no validation at all — it stores
`max_attempts` exactly as given, so constructing with `max_attempts = 0`
(or any value < 1) succeeds and the misuse surfaces only at call time. -/
theorem retryConfig_make_stores_max_attempts (max_attempts : Int)
    (base_delay max_delay exponential_base : ℚ) (jitter : Bool)
    (retryable_exceptions : List ExcClass) (non_retryable_status_codes : List Int) :
    (RetryConfig.make max_attempts base_delay max_delay exponential_base jitter
      retryable_exceptions non_retryable_status_codes).max_attempts = max_attempts := rfl

/-- C10: with `max_attempts = 0` the attempt loop body never runs, the
wrapped function is never invoked, no sleep occurs, and the wrapper falls
through to `raise RuntimeError("All retry attempts failed ...")`. -/
theorem retry_zero_attempts_runtime_error {α : Type} (config : RetryConfig)
    (uniform : ℚ → ℚ → ℚ) (func : Nat → Outcome α)
    (h : config.max_attempts = 0) :
    retryRun config uniform func = ⟨.runtimeError, 0, []⟩ := by
  unfold retryRun
  rw [h]
  rfl

/-- Witness for C10: a concrete zero-attempt policy raises `RuntimeError`
with zero invocations and no sleeps. -/
theorem retry_zero_attempts_runtime_error_witness :
    retryRun (RetryConfig.make 0 1 60 2 true [.apiErrorC] [400, 401, 403, 404, 422])
      (fun _ _ => 0) (fun _ => Outcome.ok (42 : Nat)) = ⟨.runtimeError, 0, []⟩ :=
  retry_zero_attempts_runtime_error
    (RetryConfig.make 0 1 60 2 true [.apiErrorC] [400, 401, 403, 404, 422])
    (fun _ _ => 0) (fun _ => Outcome.ok (42 : Nat)) rfl

/-- Helper: if the `k` invocations starting at attempt `a` raise retryable
exceptions away from the final attempt index and invocation `a + k`
succeeds, the loop returns that value after exactly `k + 1` further
invocations. -/
theorem retryGo_ok_after {α : Type} (config : RetryConfig) (uniform : ℚ → ℚ → ℚ)
    (func : Nat → Outcome α) (v : α) :
    ∀ (k a fuel : Nat) (lastExc : Option Exc), k < fuel →
      (∀ i, i < k → ∃ e, func (a + i) = .raise e ∧ should_retry e config = true ∧
        ((a + i : Nat) : Int) ≠ config.max_attempts - 1) →
      func (a + k) = .ok v →
      (retryGo config uniform func lastExc a fuel).result = .ok v ∧
      (retryGo config uniform func lastExc a fuel).invocations = k + 1 := by
  intro k
  induction k with
  | zero =>
      intro a fuel lastExc hk hpre hok
      obtain ⟨fuel, rfl⟩ : ∃ f, fuel = f + 1 := ⟨fuel - 1, by omega⟩
      rw [Nat.add_zero] at hok
      simp [retryGo, hok]
  | succ k ih =>
      intro a fuel lastExc hk hpre hok
      obtain ⟨fuel, rfl⟩ : ∃ f, fuel = f + 1 := ⟨fuel - 1, by omega⟩
      obtain ⟨e, he, hr, hne⟩ := hpre 0 (Nat.succ_pos k)
      rw [Nat.add_zero] at he hne
      have hrec := ih (a + 1) fuel (some e) (by omega)
        (fun i hi => by
          obtain ⟨e2, he2, hr2, hne2⟩ := hpre (i + 1) (by omega)
          refine ⟨e2, ?_, hr2, ?_⟩
          · rw [show a + 1 + i = a + (i + 1) by omega]; exact he2
          · rw [show a + 1 + i = a + (i + 1) by omega]; exact hne2)
        (by rw [show a + 1 + k = a + (k + 1) by omega]; exact hok)
      constructor
      · simp [retryGo, he, hr, hne, hrec.1]
      · simp [retryGo, he, hr, hne, hrec.2]

/-- C3: with `max_attempts = m ≥ 1` and `k < m`, an operation that raises
retryable errors on its first `k` invocations and returns `v` on
invocation `k + 1` makes the retry-decorated call return `v` after exactly
`k + 1` invocations. -/
theorem retry_returns_after_retryable_failures {α : Type} (config : RetryConfig)
    (uniform : ℚ → ℚ → ℚ) (func : Nat → Outcome α) (v : α) (k : Nat)
    (hm : 1 ≤ config.max_attempts) (hk : (k : Int) < config.max_attempts)
    (hfail : ∀ i, i < k → ∃ e, func i = .raise e ∧ should_retry e config = true)
    (hok : func k = .ok v) :
    (retryRun config uniform func).result = .ok v ∧
    (retryRun config uniform func).invocations = k + 1 := by
  unfold retryRun
  apply retryGo_ok_after config uniform func v k 0 config.max_attempts.toNat none
  · omega
  · intro i hi
    obtain ⟨e, he, hr⟩ := hfail i hi
    exact ⟨e, by simpa using he, hr, by omega⟩
  · simpa using hok

/-- Witness for C3: failing twice with `APIError(500)` then succeeding under
`max_attempts = 3` returns the success value after exactly 3 invocations. -/
theorem retry_returns_after_retryable_failures_witness :
    (retryRun RetryConfig.default (fun _ _ => 0)
      (fun i => if i < 2 then .raise ⟨.apiErrorC, some 500⟩ else .ok (7 : Nat))).result =
      .ok 7 ∧
    (retryRun RetryConfig.default (fun _ _ => 0)
      (fun i => if i < 2 then .raise ⟨.apiErrorC, some 500⟩ else .ok (7 : Nat))).invocations =
      3 :=
  retry_returns_after_retryable_failures RetryConfig.default (fun _ _ => 0)
    (fun i => if i < 2 then .raise ⟨.apiErrorC, some 500⟩ else .ok (7 : Nat)) 7 2
    (by decide) (by decide)
    (fun i hi => ⟨⟨.apiErrorC, some 500⟩, by
      interval_cases i <;> exact ⟨rfl, rfl⟩⟩)
    rfl

/-- Helper: if every invocation raises a retryable exception, the loop
consumes all its fuel and ends by re-raising the exception of the final
attempt (index `max_attempts.toNat - 1`). -/
theorem retryGo_all_failures {α : Type} (config : RetryConfig) (uniform : ℚ → ℚ → ℚ)
    (func : Nat → Outcome α) (es : Nat → Exc)
    (hfail : ∀ i, func i = .raise (es i))
    (hretry : ∀ i, should_retry (es i) config = true) :
    ∀ (fuel : Nat), ∀ (a : Nat) (lastExc : Option Exc), 1 ≤ fuel →
      a + fuel = config.max_attempts.toNat →
      (retryGo config uniform func lastExc a fuel).result =
        .raised (es (config.max_attempts.toNat - 1)) ∧
      (retryGo config uniform func lastExc a fuel).invocations = fuel := by
  intro fuel
  induction fuel with
  | zero => intro a lastExc h; omega
  | succ fuel ih =>
      intro a lastExc h1 hsum
      by_cases hf : fuel = 0
      · subst hf
        have ha : (a : Int) = config.max_attempts - 1 := by omega
        have ha2 : a = config.max_attempts.toNat - 1 := by omega
        rw [← ha2]
        simp [retryGo, hfail a, hretry a, ha]
      · have hne : ((a : Nat) : Int) ≠ config.max_attempts - 1 := by omega
        have hrec := ih (a + 1) (some (es a)) (by omega) (by omega)
        constructor
        · simp [retryGo, hfail a, hretry a, hne, hrec.1]
        · simp [retryGo, hfail a, hretry a, hne, hrec.2]

/-- C4: with `max_attempts = m ≥ 1`, an operation that raises a retryable
error on every invocation is invoked exactly `m` times and the exact
exception of the final attempt is re-raised (never a generic
"retries exhausted" placeholder). -/
theorem retry_exhausts_and_reraises_last {α : Type} (config : RetryConfig)
    (uniform : ℚ → ℚ → ℚ) (func : Nat → Outcome α) (es : Nat → Exc)
    (hm : 1 ≤ config.max_attempts)
    (hfail : ∀ i, func i = .raise (es i))
    (hretry : ∀ i, should_retry (es i) config = true) :
    (retryRun config uniform func).result =
      .raised (es (config.max_attempts.toNat - 1)) ∧
    (retryRun config uniform func).invocations = config.max_attempts.toNat := by
  unfold retryRun
  exact retryGo_all_failures config uniform func es hfail hretry
    config.max_attempts.toNat 0 none (by omega) (by omega)

/-- Witness for C4: always failing with `APIError(500 + i)` under
`max_attempts = 2` propagates the second attempt's exception after exactly
2 invocations. -/
theorem retry_exhausts_and_reraises_last_witness :
    (retryRun (RetryConfig.make 2 2 10 2 true [.apiErrorC] [400, 401, 403, 404, 422])
      (fun _ _ => 0) (fun i => (.raise ⟨.apiErrorC, some (500 + i)⟩ : Outcome Nat))).result =
      .raised ⟨.apiErrorC, some 501⟩ ∧
    (retryRun (RetryConfig.make 2 2 10 2 true [.apiErrorC] [400, 401, 403, 404, 422])
      (fun _ _ => 0) (fun i => (.raise ⟨.apiErrorC, some (500 + i)⟩ : Outcome Nat))).invocations =
      2 :=
  retry_exhausts_and_reraises_last
    (RetryConfig.make 2 2 10 2 true [.apiErrorC] [400, 401, 403, 404, 422])
    (fun _ _ => 0) (fun i => (.raise ⟨.apiErrorC, some (500 + i)⟩ : Outcome Nat))
    (fun i => ⟨.apiErrorC, some (500 + i)⟩)
    (by decide) (fun i => rfl)
    (fun i => by
      simp [should_retry, RetryConfig.make, isinstance, ExcClass.isSubclass,
        ExcClass.ancestors]
      omega)

/-- Helper: a non-retryable exception at invocation `a + k`, after `k`
retryable failures, is re-raised at once: `k + 1` invocations in total and
at most one sleep per executed retry attempt (none before attempt 0). -/
theorem retryGo_nonretryable_stops {α : Type} (config : RetryConfig)
    (uniform : ℚ → ℚ → ℚ) (func : Nat → Outcome α) (e : Exc) :
    ∀ (k a fuel : Nat) (lastExc : Option Exc), k < fuel →
      (∀ i, i < k → ∃ e2, func (a + i) = .raise e2 ∧ should_retry e2 config = true ∧
        ((a + i : Nat) : Int) ≠ config.max_attempts - 1) →
      func (a + k) = .raise e → should_retry e config = false →
      (retryGo config uniform func lastExc a fuel).result = .raised e ∧
      (retryGo config uniform func lastExc a fuel).invocations = k + 1 ∧
      (retryGo config uniform func lastExc a fuel).sleeps.length ≤
        k + (if a = 0 then 0 else 1) := by
  intro k
  induction k with
  | zero =>
      intro a fuel lastExc hk hpre he hnr
      obtain ⟨fuel, rfl⟩ : ∃ f, fuel = f + 1 := ⟨fuel - 1, by omega⟩
      rw [Nat.add_zero] at he
      by_cases ha : a = 0
      · subst ha
        simp [retryGo, he, hnr, calculate_delay]
      · refine ⟨by simp [retryGo, he, hnr], by simp [retryGo, he, hnr], ?_⟩
        have hs : (retryGo config uniform func lastExc a (fuel + 1)).sleeps =
            (if 0 < calculate_delay a config uniform
              then [calculate_delay a config uniform] else []) := by
          simp [retryGo, he, hnr]
        rw [hs, if_neg ha]
        split
        · simp
        · simp
  | succ k ih =>
      intro a fuel lastExc hk hpre he hnr
      obtain ⟨fuel, rfl⟩ : ∃ f, fuel = f + 1 := ⟨fuel - 1, by omega⟩
      obtain ⟨e2, he2, hr2, hne2⟩ := hpre 0 (Nat.succ_pos k)
      rw [Nat.add_zero] at he2 hne2
      have hrec := ih (a + 1) fuel (some e2) (by omega)
        (fun i hi => by
          obtain ⟨e3, he3, hr3, hne3⟩ := hpre (i + 1) (by omega)
          refine ⟨e3, ?_, hr3, ?_⟩
          · rw [show a + 1 + i = a + (i + 1) by omega]; exact he3
          · rw [show a + 1 + i = a + (i + 1) by omega]; exact hne3)
        (by rw [show a + 1 + k = a + (k + 1) by omega]; exact he) hnr
      refine ⟨by simp [retryGo, he2, hr2, hne2, hrec.1],
        by simp [retryGo, he2, hr2, hne2, hrec.2.1], ?_⟩
      have hlen := hrec.2.2
      rw [if_neg (by omega)] at hlen
      have hs : (retryGo config uniform func lastExc a (fuel + 1)).sleeps =
          (if 0 < calculate_delay a config uniform
            then [calculate_delay a config uniform] else []) ++
          (retryGo config uniform func (some e2) (a + 1) fuel).sleeps := by
        simp [retryGo, he2, hr2, hne2]
      rw [hs, List.length_append]
      by_cases ha : a = 0
      · subst ha
        rw [if_pos rfl]
        have hz : calculate_delay 0 config uniform = 0 := rfl
        rw [hz]
        norm_num
        simp only [Nat.zero_add] at hlen
        omega
      · rw [if_neg ha]
        split
        · simp only [List.length_singleton]; omega
        · simp only [List.length_nil]; omega

/-- C7: if the operation raises a non-retryable exception on attempt `k`
(after `k` retryable failures), the retry-decorated call re-raises exactly
that exception after that single invocation — `k + 1` invocations in all,
at most `k` sleeps, and none of the remaining attempts are consumed. -/
theorem retry_nonretryable_raises_immediately {α : Type} (config : RetryConfig)
    (uniform : ℚ → ℚ → ℚ) (func : Nat → Outcome α) (e : Exc) (k : Nat)
    (hk : (k : Int) < config.max_attempts)
    (hfail : ∀ i, i < k → ∃ e2, func i = .raise e2 ∧ should_retry e2 config = true)
    (he : func k = .raise e) (hnr : should_retry e config = false) :
    (retryRun config uniform func).result = .raised e ∧
    (retryRun config uniform func).invocations = k + 1 ∧
    (retryRun config uniform func).sleeps.length ≤ k := by
  unfold retryRun
  have h := retryGo_nonretryable_stops config uniform func e k 0
    config.max_attempts.toNat none (by omega)
    (fun i hi => by
      obtain ⟨e2, he2, hr2⟩ := hfail i hi
      exact ⟨e2, by simpa using he2, hr2, by omega⟩)
    (by simpa using he) hnr
  simpa using h

/-- Witness for C7: an `AuthenticationError` on the first attempt under the
default policy is re-raised after exactly one invocation with no sleeps. -/
theorem retry_nonretryable_raises_immediately_witness :
    (retryRun RetryConfig.default (fun _ _ => 0)
      (fun _ => (.raise ⟨.authenticationErrorC, none⟩ : Outcome Nat))).result =
      .raised ⟨.authenticationErrorC, none⟩ ∧
    (retryRun RetryConfig.default (fun _ _ => 0)
      (fun _ => (.raise ⟨.authenticationErrorC, none⟩ : Outcome Nat))).invocations = 1 ∧
    (retryRun RetryConfig.default (fun _ _ => 0)
      (fun _ => (.raise ⟨.authenticationErrorC, none⟩ : Outcome Nat))).sleeps.length ≤ 0 :=
  retry_nonretryable_raises_immediately RetryConfig.default (fun _ _ => 0)
    (fun _ => (.raise ⟨.authenticationErrorC, none⟩ : Outcome Nat))
    ⟨.authenticationErrorC, none⟩ 0 (by decide) (fun i hi => absurd hi (by omega))
    rfl rfl

/-! ## Circuit-breaker helper lemmas -/

theorem CircuitBreaker.onFailure_state (cb : CircuitBreaker) (now : ℚ) :
    (cb.onFailure now).state =
      if cb.failure_threshold ≤ cb.failure_count + 1 then .open else cb.state := by
  unfold onFailure
  simp only [ge_iff_le]
  split
  · rfl
  · rfl

theorem CircuitBreaker.onFailure_failure_count (cb : CircuitBreaker) (now : ℚ) :
    (cb.onFailure now).failure_count = cb.failure_count + 1 := by
  unfold onFailure
  simp only [ge_iff_le]
  split
  · rfl
  · rfl

theorem CircuitBreaker.onFailure_last_failure_time (cb : CircuitBreaker) (now : ℚ) :
    (cb.onFailure now).last_failure_time = some now := by
  unfold onFailure
  simp only [ge_iff_le]
  split
  · rfl
  · rfl

theorem CircuitBreaker.onFailure_static (cb : CircuitBreaker) (now : ℚ) :
    (cb.onFailure now).failure_threshold = cb.failure_threshold ∧
    (cb.onFailure now).recovery_timeout = cb.recovery_timeout ∧
    (cb.onFailure now).expected_exception = cb.expected_exception := by
  unfold onFailure
  simp only [ge_iff_le]
  split
  · exact ⟨rfl, rfl, rfl⟩
  · exact ⟨rfl, rfl, rfl⟩

theorem CircuitBreaker.gate_not_open {cb : CircuitBreaker} (now : ℚ)
    (h : ¬ cb.state = .open) : cb.gate now = some cb := by
  unfold gate
  rw [if_neg h]

theorem CircuitBreaker.gate_open_reset {cb : CircuitBreaker} (now : ℚ)
    (h1 : cb.state = .open) (h2 : cb.shouldAttemptReset now = true) :
    cb.gate now = some { cb with state := .halfOpen } := by
  unfold gate
  rw [if_pos h1, if_pos h2]

theorem CircuitBreaker.gate_open_reject {cb : CircuitBreaker} (now : ℚ)
    (h1 : cb.state = .open) (h2 : cb.shouldAttemptReset now = false) :
    cb.gate now = none := by
  unfold gate
  rw [if_pos h1, if_neg (by rw [h2]; exact Bool.false_ne_true)]

theorem CircuitBreaker.call_ok_of_gate {α : Type} {cb cb1 : CircuitBreaker} {now : ℚ}
    (h : cb.gate now = some cb1) (v : α) :
    cb.call now (.ok v) = ⟨.ok v, cb1.onSuccess, true⟩ := by
  unfold call
  rw [h]

theorem CircuitBreaker.call_raise_counted {α : Type} {cb cb1 : CircuitBreaker} {now : ℚ}
    {e : Exc} (h : cb.gate now = some cb1)
    (hc : isinstance e cb.expected_exception = true) :
    cb.call now (.raise e : Outcome α) = ⟨.raised e, cb1.onFailure now, true⟩ := by
  unfold call
  rw [h]
  simp [hc]

theorem CircuitBreaker.call_raise_uncounted {α : Type} {cb cb1 : CircuitBreaker} {now : ℚ}
    {e : Exc} (h : cb.gate now = some cb1)
    (hc : isinstance e cb.expected_exception = false) :
    cb.call now (.raise e : Outcome α) = ⟨.raised e, cb1, true⟩ := by
  unfold call
  rw [h]
  simp [hc]

theorem CircuitBreaker.call_rejected {α : Type} {cb : CircuitBreaker} {now : ℚ}
    (h : cb.gate now = none) (o : Outcome α) :
    cb.call now o = ⟨.raised circuitBreakerOpenExc, cb, false⟩ := by
  unfold call
  rw [h]

/-- From a closed breaker, consecutive counted failures that exactly
exhaust the remaining threshold leave the breaker open. -/
theorem CircuitBreaker.runCalls_opens {α : Type} :
    ∀ (events : List (CallEvent α)) (cb : CircuitBreaker),
      cb.state = .closed →
      (∀ ev ∈ events, ∃ e, ev.outcome = .raise e ∧
        isinstance e cb.expected_exception = true) →
      cb.failure_count + events.length = cb.failure_threshold →
      events ≠ [] →
      (cb.runCalls events).state = .open := by
  intro events
  induction events with
  | nil => intro _ _ _ _ h; exact absurd rfl h
  | cons ev rest ih =>
      intro cb hst hev hsum _
      obtain ⟨e, hoe, hce⟩ := hev ev (List.mem_cons_self ev rest)
      have hg := @gate_not_open cb ev.now (by rw [hst]; intro h; cases h)
      have hcall : (cb.call ev.now ev.outcome).breaker = cb.onFailure ev.now := by
        rw [hoe, call_raise_counted hg hce]
      rw [runCalls, hcall]
      by_cases hrest : rest = []
      · subst hrest
        rw [runCalls, onFailure_state]
        rw [if_pos (by simp at hsum; omega)]
      · apply ih
        · rw [onFailure_state, if_neg ?_, hst]
          have h1 : 1 ≤ rest.length := by
            cases hr2 : rest with
            | nil => exact absurd hr2 hrest
            | cons a l => simp
          simp at hsum
          omega
        · intro ev2 hev2
          obtain ⟨e2, hoe2, hce2⟩ := hev ev2 (List.mem_cons_of_mem ev hev2)
          exact ⟨e2, hoe2, by rw [(onFailure_static cb ev.now).2.2]; exact hce2⟩
        · rw [onFailure_failure_count, (onFailure_static cb ev.now).1]
          simp at hsum ⊢
          omega
        · exact hrest

/-- C1: a fresh breaker with `failure_threshold = n ≥ 1` transitions
Closed → Open after `n` consecutive counted failures; and any call made
while Open with elapsed time since `last_failure_time` below
`recovery_timeout` is rejected with `CircuitBreakerOpenError` without the
wrapped operation being invoked. -/
theorem circuit_breaker_opens_then_rejects {α : Type} :
    (∀ (th : Int) (rt : ℚ) (ec : ExcClass) (events : List (CallEvent α)),
      1 ≤ th → (events.length : Int) = th →
      (∀ ev ∈ events, ∃ e, ev.outcome = .raise e ∧ isinstance e ec = true) →
      ((CircuitBreaker.make th rt ec).runCalls events).state = .open)
    ∧
    (∀ (cb : CircuitBreaker) (now t : ℚ) (outcome : Outcome α),
      cb.state = .open → cb.last_failure_time = some t →
      now - t < cb.recovery_timeout →
      cb.call now outcome = ⟨.raised circuitBreakerOpenExc, cb, false⟩) := by
  constructor
  · intro th rt ec events h1 hlen hev
    apply CircuitBreaker.runCalls_opens events _ rfl hev (by simp [CircuitBreaker.make]; omega)
    intro h
    subst h
    simp at hlen
    omega
  · intro cb now t outcome hst hlt hto
    have h2 : cb.shouldAttemptReset now = false := by
      unfold CircuitBreaker.shouldAttemptReset
      rw [hlt]
      simp only [decide_eq_false_iff_not]
      exact not_le.mpr hto
    exact CircuitBreaker.call_rejected (CircuitBreaker.gate_open_reject now hst h2) outcome

/-- Witness for C1: three counted failures open a `failure_threshold = 3`
breaker, and a call 8 seconds later (before the 60-second timeout) is
rejected without invoking the operation. -/
theorem circuit_breaker_opens_then_rejects_witness :
    ((CircuitBreaker.make 3 60 .apiErrorC).runCalls
      ([⟨0, .raise ⟨.apiErrorC, some 500⟩⟩, ⟨1, .raise ⟨.apiErrorC, some 500⟩⟩,
        ⟨2, .raise ⟨.apiErrorC, some 500⟩⟩] : List (CallEvent Nat))).state = .open ∧
    ({ failure_threshold := 3, recovery_timeout := 60, expected_exception := .apiErrorC,
       failure_count := 3, last_failure_time := some 2,
       state := .open } : CircuitBreaker).call 10 (Outcome.ok (7 : Nat)) =
      ⟨.raised circuitBreakerOpenExc,
       { failure_threshold := 3, recovery_timeout := 60, expected_exception := .apiErrorC,
         failure_count := 3, last_failure_time := some 2, state := .open }, false⟩ :=
  ⟨(circuit_breaker_opens_then_rejects (α := Nat)).1 3 60 .apiErrorC _ (by decide) (by decide)
    (fun ev hev => by fin_cases hev <;> exact ⟨⟨.apiErrorC, some 500⟩, rfl, rfl⟩),
   (circuit_breaker_opens_then_rejects (α := Nat)).2 _ 10 2 (Outcome.ok 7) rfl rfl
     (by norm_num)⟩

theorem breakerInv_call {α : Type} (cb : CircuitBreaker) (now : ℚ) (o : Outcome α)
    (h : BreakerInv cb) : BreakerInv ((cb.call now o).breaker) := by
  have hcount : ∀ cb1 : CircuitBreaker, BreakerInv cb1 →
      BreakerInv (cb1.onFailure now) := by
    intro cb1 hbi h2
    rw [CircuitBreaker.onFailure_state] at h2
    constructor
    · rw [(CircuitBreaker.onFailure_static cb1 now).1,
        CircuitBreaker.onFailure_failure_count]
      by_cases hcc : cb1.failure_threshold ≤ cb1.failure_count + 1
      · exact hcc
      · rw [if_neg hcc] at h2
        exact absurd (hbi h2).1 (by omega)
    · rw [CircuitBreaker.onFailure_last_failure_time]
      simp
  by_cases hst : cb.state = .open
  · by_cases hr : cb.shouldAttemptReset now = true
    · have hg := CircuitBreaker.gate_open_reset now hst hr
      cases o with
      | ok v =>
          rw [CircuitBreaker.call_ok_of_gate hg]
          intro h2
          simp [CircuitBreaker.onSuccess] at h2
      | raise e =>
          by_cases hc : isinstance e cb.expected_exception = true
          · rw [CircuitBreaker.call_raise_counted hg hc]
            exact hcount _ (by intro h2; simp at h2)
          · rw [CircuitBreaker.call_raise_uncounted hg
              (by simpa using hc)]
            intro h2
            simp at h2
    · have hg := CircuitBreaker.gate_open_reject now hst (by simpa using hr)
      rw [CircuitBreaker.call_rejected hg o]
      exact h
  · have hg := CircuitBreaker.gate_not_open now hst
    cases o with
    | ok v =>
        rw [CircuitBreaker.call_ok_of_gate hg]
        intro h2
        simp [CircuitBreaker.onSuccess] at h2
    | raise e =>
        by_cases hc : isinstance e cb.expected_exception = true
        · rw [CircuitBreaker.call_raise_counted hg hc]
          exact hcount _ h
        · rw [CircuitBreaker.call_raise_uncounted hg (by simpa using hc)]
          exact h

theorem breakerInv_runCalls {α : Type} :
    ∀ (events : List (CallEvent α)) (cb : CircuitBreaker),
      BreakerInv cb → BreakerInv (cb.runCalls events) := by
  intro events
  induction events with
  | nil => intro cb h; exact h
  | cons ev rest ih =>
      intro cb h
      rw [CircuitBreaker.runCalls]
      exact ih _ (breakerInv_call cb ev.now ev.outcome h)

/-- Every reachable breaker satisfies the invariant. -/
theorem reachable_breakerInv (cb : CircuitBreaker) (h : cb.Reachable) :
    BreakerInv cb := by
  obtain ⟨th, rt, ec, evs, rfl⟩ := h
  apply breakerInv_runCalls
  intro h2
  simp [CircuitBreaker.make] at h2

/-- C2: a reachable breaker that is Open whose recovery timeout has elapsed
lets the next call through — the gate moves it to HalfOpen first and the
operation is invoked; success closes the breaker and resets the failure
count to 0; a counted failure re-opens it and stamps `last_failure_time`
with the current time. -/
theorem circuit_breaker_halfopen_recovery {α : Type} (cb : CircuitBreaker)
    (hreach : cb.Reachable) (now t : ℚ) (outcome : Outcome α)
    (hst : cb.state = .open) (hlt : cb.last_failure_time = some t)
    (hto : cb.recovery_timeout ≤ now - t) :
    cb.gate now = some { cb with state := .halfOpen } ∧
    (cb.call now outcome).invoked = true ∧
    (∀ v, outcome = .ok v → (cb.call now outcome).result = .ok v ∧
      (cb.call now outcome).breaker.state = .closed ∧
      (cb.call now outcome).breaker.failure_count = 0) ∧
    (∀ e, outcome = .raise e → isinstance e cb.expected_exception = true →
      (cb.call now outcome).breaker.state = .open ∧
      (cb.call now outcome).breaker.last_failure_time = some now) := by
  have hr : cb.shouldAttemptReset now = true := by
    unfold CircuitBreaker.shouldAttemptReset
    rw [hlt]
    simp only [ge_iff_le, decide_eq_true_eq]
    exact hto
  have hg := CircuitBreaker.gate_open_reset now hst hr
  refine ⟨hg, ?_, ?_, ?_⟩
  · cases outcome with
    | ok v => rw [CircuitBreaker.call_ok_of_gate hg]
    | raise e =>
        by_cases hc : isinstance e cb.expected_exception = true
        · rw [CircuitBreaker.call_raise_counted hg hc]
        · rw [CircuitBreaker.call_raise_uncounted hg (by simpa using hc)]
  · intro v hv
    subst hv
    rw [CircuitBreaker.call_ok_of_gate hg]
    exact ⟨rfl, rfl, rfl⟩
  · intro e hv hc
    subst hv
    rw [CircuitBreaker.call_raise_counted hg hc]
    have hth := (reachable_breakerInv cb hreach hst).1
    constructor
    · rw [CircuitBreaker.onFailure_state, if_pos ?_]
      show cb.failure_threshold ≤ cb.failure_count + 1
      omega
    · rw [CircuitBreaker.onFailure_last_failure_time]

/-- Witness for C2: a threshold-1 breaker opened by one failure at time 0
recovers at time 5 (timeout 5): the call is let through and a success
closes it with the counter reset. -/
theorem circuit_breaker_halfopen_recovery_witness :
    cbAfterOneFailure.gate 5 = some { cbAfterOneFailure with state := .halfOpen } ∧
    (cbAfterOneFailure.call 5 (Outcome.ok (7 : Nat))).invoked = true ∧
    (∀ v, Outcome.ok (7 : Nat) = .ok v →
      (cbAfterOneFailure.call 5 (Outcome.ok (7 : Nat))).result = .ok v ∧
      (cbAfterOneFailure.call 5 (Outcome.ok (7 : Nat))).breaker.state = .closed ∧
      (cbAfterOneFailure.call 5 (Outcome.ok (7 : Nat))).breaker.failure_count = 0) ∧
    (∀ e, Outcome.ok (7 : Nat) = .raise e →
      isinstance e cbAfterOneFailure.expected_exception = true →
      (cbAfterOneFailure.call 5 (Outcome.ok (7 : Nat))).breaker.state = .open ∧
      (cbAfterOneFailure.call 5 (Outcome.ok (7 : Nat))).breaker.last_failure_time =
        some 5) :=
  circuit_breaker_halfopen_recovery cbAfterOneFailure
    ⟨1, 5, .apiErrorC, [⟨0, .raise ⟨.apiErrorC, some 500⟩⟩], rfl⟩
    5 0 (Outcome.ok 7) rfl rfl (by norm_num [cbAfterOneFailure])

/-- The gate changes at most the state: counters and timestamps of the
breaker it lets through are those of the original breaker. -/
theorem CircuitBreaker.gate_some_fields {cb cb1 : CircuitBreaker} {now : ℚ}
    (h : cb.gate now = some cb1) :
    cb1.failure_count = cb.failure_count ∧
    cb1.last_failure_time = cb.last_failure_time := by
  unfold gate at h
  split at h
  · split at h
    · cases h
      exact ⟨rfl, rfl⟩
    · cases h
  · cases h
    exact ⟨rfl, rfl⟩

/-- C8: in `ApiClient.request` the breaker wraps the whole retry-decorated
operation.  A call rejected with `CircuitBreakerOpenError` runs neither
the retry executor nor the underlying operation and leaves the breaker
untouched; otherwise the breaker transition is one `CircuitBreaker.call`
step on the final outcome of the retried sequence, so per external call
`failure_count` is reset, unchanged, or incremented by exactly one (never
once per retry attempt) and `last_failure_time` is unchanged or stamped
with the call time. -/
theorem pipeline_breaker_observes_final_outcome {α : Type} (cb : CircuitBreaker)
    (config : RetryConfig) (uniform : ℚ → ℚ → ℚ) (func : Nat → Outcome α)
    (now t : ℚ) :
    (cb.state = .open → cb.last_failure_time = some t →
      now - t < cb.recovery_timeout →
      ApiClient.request cb config uniform func now =
        ⟨.raised circuitBreakerOpenExc, cb, 0, false⟩) ∧
    ((ApiClient.request cb config uniform func now).breaker =
      (cb.call now (retryFinalOutcome config uniform func).1).breaker) ∧
    ((ApiClient.request cb config uniform func now).breaker.failure_count = 0 ∨
     (ApiClient.request cb config uniform func now).breaker.failure_count =
       cb.failure_count ∨
     (ApiClient.request cb config uniform func now).breaker.failure_count =
       cb.failure_count + 1) ∧
    ((ApiClient.request cb config uniform func now).breaker.last_failure_time =
       cb.last_failure_time ∨
     (ApiClient.request cb config uniform func now).breaker.last_failure_time =
       some now) := by
  have hstep : ∀ o : Outcome α,
      ((cb.call now o).breaker.failure_count = 0 ∨
       (cb.call now o).breaker.failure_count = cb.failure_count ∨
       (cb.call now o).breaker.failure_count = cb.failure_count + 1) ∧
      ((cb.call now o).breaker.last_failure_time = cb.last_failure_time ∨
       (cb.call now o).breaker.last_failure_time = some now) := by
    intro o
    cases hg : cb.gate now with
    | none =>
        rw [CircuitBreaker.call_rejected hg o]
        exact ⟨Or.inr (Or.inl rfl), Or.inl rfl⟩
    | some cb1 =>
        obtain ⟨hfc, hlf⟩ := CircuitBreaker.gate_some_fields hg
        cases o with
        | ok v =>
            rw [CircuitBreaker.call_ok_of_gate hg]
            exact ⟨Or.inl rfl, Or.inl hlf⟩
        | raise e =>
            by_cases hc : isinstance e cb.expected_exception = true
            · rw [CircuitBreaker.call_raise_counted hg hc]
              refine ⟨Or.inr (Or.inr ?_), Or.inr ?_⟩
              · rw [CircuitBreaker.onFailure_failure_count, hfc]
              · rw [CircuitBreaker.onFailure_last_failure_time]
            · rw [CircuitBreaker.call_raise_uncounted hg (by simpa using hc)]
              exact ⟨Or.inr (Or.inl hfc), Or.inl hlf⟩
  refine ⟨?_, rfl, (hstep _).1, (hstep _).2⟩
  intro hst hlt hto
  have h2 : cb.shouldAttemptReset now = false := by
    unfold CircuitBreaker.shouldAttemptReset
    rw [hlt]
    simp only [ge_iff_le, decide_eq_false_iff_not]
    exact not_le.mpr hto
  have hg := CircuitBreaker.gate_open_reject now hst h2
  simp only [ApiClient.request]
  rw [CircuitBreaker.call_rejected hg]
  rfl

/-- Witness for C8: the open breaker of `cbAfterOneFailure` called at time
2 (before the timeout) rejects the request with no retry and no
invocation, and the at-most-once update facts hold there. -/
theorem pipeline_breaker_observes_final_outcome_witness :
    (ApiClient.request cbAfterOneFailure RetryConfig.default (fun _ _ => 0)
        (fun _ => (Outcome.raise ⟨.apiErrorC, some 500⟩ : Outcome Nat)) 2 =
      ⟨.raised circuitBreakerOpenExc, cbAfterOneFailure, 0, false⟩) ∧
    ((ApiClient.request cbAfterOneFailure RetryConfig.default (fun _ _ => 0)
        (fun _ => (Outcome.raise ⟨.apiErrorC, some 500⟩ : Outcome Nat)) 2).breaker =
      (cbAfterOneFailure.call 2 (retryFinalOutcome RetryConfig.default (fun _ _ => 0)
        (fun _ => (Outcome.raise ⟨.apiErrorC, some 500⟩ : Outcome Nat))).1).breaker) ∧
    ((ApiClient.request cbAfterOneFailure RetryConfig.default (fun _ _ => 0)
        (fun _ => (Outcome.raise ⟨.apiErrorC, some 500⟩ : Outcome Nat)) 2).breaker.failure_count = 0 ∨
     (ApiClient.request cbAfterOneFailure RetryConfig.default (fun _ _ => 0)
        (fun _ => (Outcome.raise ⟨.apiErrorC, some 500⟩ : Outcome Nat)) 2).breaker.failure_count =
       cbAfterOneFailure.failure_count ∨
     (ApiClient.request cbAfterOneFailure RetryConfig.default (fun _ _ => 0)
        (fun _ => (Outcome.raise ⟨.apiErrorC, some 500⟩ : Outcome Nat)) 2).breaker.failure_count =
       cbAfterOneFailure.failure_count + 1) ∧
    ((ApiClient.request cbAfterOneFailure RetryConfig.default (fun _ _ => 0)
        (fun _ => (Outcome.raise ⟨.apiErrorC, some 500⟩ : Outcome Nat)) 2).breaker.last_failure_time =
       cbAfterOneFailure.last_failure_time ∨
     (ApiClient.request cbAfterOneFailure RetryConfig.default (fun _ _ => 0)
        (fun _ => (Outcome.raise ⟨.apiErrorC, some 500⟩ : Outcome Nat)) 2).breaker.last_failure_time =
       some 2) :=
  have h := pipeline_breaker_observes_final_outcome cbAfterOneFailure RetryConfig.default
    (fun _ _ => 0) (fun _ => (Outcome.raise ⟨.apiErrorC, some 500⟩ : Outcome Nat)) 2 0
  ⟨h.1 rfl rfl (by norm_num [cbAfterOneFailure]), h.2.1, h.2.2.1, h.2.2.2⟩

end UnifiedCatalog
